import Mathlib

/-!
Shallow embedding of the DQUOTE client's social-graph / feed logic.

The remote document store is modelled as explicit lists of records
(`Store`); each UI handler becomes a pure function from a store (plus the
handler's local view state) to a new store.  Firestore queries are
modelled as `List.filter`, `orderBy` as `List.mergeSort` with the
corresponding comparison, and `limit` as `List.take`.  Timestamps are
integers in milliseconds, matching the JavaScript `Date.getTime` scale
used by the rate-limit check.
-/

namespace DQuote

/-- A record of the `posts` collection (interface `Post` plus the fields
written by `CreatePage.handleSubmit`). -/
structure Post where
  pid : Nat
  userId : Nat
  username : String
  displayName : String
  text : String
  imageUrl : Option String
  createdAt : Int
  likeCount : Int
  commentCount : Int
  isPublic : Bool
deriving DecidableEq

/-- A record of the `follows` collection: a directed follow edge. -/
structure FollowEdge where
  followerId : Nat
  followingId : Nat
  createdAt : Int
deriving DecidableEq

/-- A record of the `likes` collection: a (post, liking user) edge. -/
structure LikeEdge where
  postId : Nat
  userId : Nat
  createdAt : Int
deriving DecidableEq

/-- The slice of a `users` document that the embedded handlers read or
write: privacy flag, verification flag and the denormalized counters. -/
structure UserRec where
  uid : Nat
  username : String
  displayName : String
  isPrivate : Bool
  isVerified : Bool
  postCount : Int
  followerCount : Int
  followingCount : Int
deriving DecidableEq

/-- Status of a verification request. -/
inductive VStatus where
  | pending
  | approved
  | rejected
deriving DecidableEq

/-- A record of the `verificationRequests` collection. -/
structure VRequest where
  rid : Nat
  userId : Nat
  status : VStatus
  reviewedAt : Option Int
  reviewedBy : Option Nat
deriving DecidableEq

/-- The remote document store: one list per collection. -/
structure Store where
  users : List UserRec
  posts : List Post
  follows : List FollowEdge
  likes : List LikeEdge
  requests : List VRequest
deriving DecidableEq

/-! ## Feed assembly (`HomePage.fetchFollowing` / `fetchHomeFeed`) -/

/-- Comparison used by `orderBy('createdAt', 'desc')`. -/
def byCreatedAtDesc (a b : Post) : Bool :=
  b.createdAt ≤ a.createdAt

/-- Comparison used by `orderBy('likeCount', 'desc')`. -/
def byLikeCountDesc (a b : Post) : Bool :=
  b.likeCount ≤ a.likeCount

/-- `fetchFollowing`: ids of everyone the viewer follows, one per edge
whose `followerId` equals the viewer. -/
def fetchFollowing (viewerUid : Nat) (st : Store) : List Nat :=
  (st.follows.filter (fun e => e.followerId == viewerUid)).map FollowEdge.followingId

/-- `fetchHomeFeed`: if the viewer follows at least one user, posts by the
first 10 followed ids (the Firestore `in` constraint), newest first,
limit 20; otherwise the 10 most-liked posts globally. -/
def fetchHomeFeed (following : List Nat) (posts : List Post) : List Post :=
  if following.length > 0 then
    let followingChunk := following.take 10
    ((posts.filter (fun p => followingChunk.contains p.userId)).mergeSort byCreatedAtDesc).take 20
  else
    (posts.mergeSort byLikeCountDesc).take 10

/-- The home feed for a viewer: `fetchFollowing` feeding `fetchHomeFeed`. -/
def assembleHomeFeed (viewerUid : Nat) (st : Store) : List Post :=
  fetchHomeFeed (fetchFollowing viewerUid st) st.posts

/-! ## Like toggle (`PostCard.handleLike`) -/

/-- Delete the first list element matched by `p` (the effect of
`deleteDoc(snapshot.docs[0].ref)` guarded by `!snapshot.empty`); a list
with no match is returned unchanged. -/
def deleteFirstMatch (p : α → Bool) : List α → List α
  | [] => []
  | x :: xs => if p x then xs else x :: deleteFirstMatch p xs

/-- The `where('postId','==',...), where('userId','==',...)` query filter
of `handleLike`. -/
def likeMatches (postId userId : Nat) (e : LikeEdge) : Bool :=
  e.postId == postId && e.userId == userId

/-- `updateDoc(doc(db,'posts', postId), { likeCount: increment(d) })`. -/
def applyLikeDelta (postId : Nat) (d : Int) (posts : List Post) : List Post :=
  posts.map (fun p => if p.pid == postId then { p with likeCount := p.likeCount + d } else p)

/-- The like count currently stored on post `postId`, when it exists. -/
def getLikeCount (postId : Nat) (posts : List Post) : Option Int :=
  (posts.find? (fun p => p.pid == postId)).map Post.likeCount

/-- `handleLike`: given the component's local `liked` flag, either delete
the first matching like edge (if any) and decrement the post's counter, or
insert a like edge and increment it; returns the new store and the new
`liked` flag. -/
def handleLike (userId postId : Nat) (liked : Bool) (now : Int) (st : Store) :
    Store × Bool :=
  if liked then
    ({ st with
        likes := deleteFirstMatch (likeMatches postId userId) st.likes,
        posts := applyLikeDelta postId (-1) st.posts }, false)
  else
    ({ st with
        likes := st.likes ++ [⟨postId, userId, now⟩],
        posts := applyLikeDelta postId 1 st.posts }, true)

/-! ## Follow toggle (`UserCard.handleFollow`) -/

/-- The `where('followerId','==',...), where('followingId','==',...)`
query filter of `handleFollow` / `checkFollowStatus`. -/
def followMatches (followerId followingId : Nat) (e : FollowEdge) : Bool :=
  e.followerId == followerId && e.followingId == followingId

/-- `handleFollow`: given the component's local `isFollowing` flag, either
delete the first matching follow edge (if any) or insert a fresh edge;
returns the new store and the new flag.  No other collection is touched. -/
def handleFollow (currentUid targetUid : Nat) (isFollowing : Bool) (now : Int)
    (st : Store) : Store × Bool :=
  if isFollowing then
    ({ st with follows := deleteFirstMatch (followMatches currentUid targetUid) st.follows },
     false)
  else
    ({ st with follows := st.follows ++ [⟨currentUid, targetUid, now⟩] }, true)

/-! ## Rate-limited post creation (`CreatePage.checkRateLimit` / `handleSubmit`) -/

/-- `checkRateLimit`: `true` (may post) iff the author has no post with
`createdAt > now - 60 * 1000`. -/
def checkRateLimit (authorUid : Nat) (now : Int) (posts : List Post) : Bool :=
  (posts.filter (fun p => p.userId == authorUid && decide (now - 60 * 1000 < p.createdAt))).isEmpty

/-- `updateDoc(doc(db,'users', uid), { postCount: increment(1) })`. -/
def incrementPostCount (uid : Nat) (users : List UserRec) : List UserRec :=
  users.map (fun u => if u.uid == uid then { u with postCount := u.postCount + 1 } else u)

/-- JS `String.prototype.trim` as used by `handleSubmit`, modelled as an
executable function: strip leading and trailing whitespace characters. -/
def strTrim (s : String) : String :=
  ⟨((s.data.dropWhile Char.isWhitespace).reverse.dropWhile Char.isWhitespace).reverse⟩

/-- Outcome of a `handleSubmit` call: which toast fired, the resulting
store, and whether the rate-limit query was actually issued. -/
inductive CreateResult where
  | emptyText
  | rateLimited
  | created
deriving DecidableEq

/-- Result record of `handleSubmit`. -/
structure SubmitOutcome where
  result : CreateResult
  store : Store
  rateLimitQueried : Bool
deriving DecidableEq

/-- `handleSubmit`: reject blank text before any query; then run the
rate-limit check; on success append the new post (author snapshot, trimmed
text, zero counters, `isPublic = !isPrivate`) and increment the author's
`postCount`. -/
def handleSubmit (author : UserRec) (text imageUrl : String) (newPid : Nat)
    (now : Int) (st : Store) : SubmitOutcome :=
  if (strTrim text) = "" then
    ⟨.emptyText, st, false⟩
  else if !checkRateLimit author.uid now st.posts then
    ⟨.rateLimited, st, true⟩
  else
    let postData : Post :=
      { pid := newPid
        userId := author.uid
        username := author.username
        displayName := author.displayName
        text := (strTrim text)
        imageUrl := if (strTrim imageUrl) = "" then none else some (strTrim imageUrl)
        createdAt := now
        likeCount := 0
        commentCount := 0
        isPublic := !author.isPrivate }
    ⟨.created,
     { st with
        posts := st.posts ++ [postData],
        users := incrementPostCount author.uid st.users }, true⟩

/-! ## Verification decision (`AdminPage.handleVerificationDecision`) -/

/-- `updateDoc(doc(db,'users', uid), { isVerified: true })`. -/
def setVerified (uid : Nat) (users : List UserRec) : List UserRec :=
  users.map (fun u => if u.uid == uid then { u with isVerified := true } else u)

/-- The field update written to the decided verification request:
`{ status: decision, reviewedAt: new Date(), reviewedBy: user.uid }`. -/
def reviewUpdate (decision : VStatus) (reviewerUid : Nat) (now : Int)
    (r : VRequest) : VRequest :=
  { r with status := decision, reviewedAt := some now, reviewedBy := some reviewerUid }

/-- `handleVerificationDecision`: write status and review metadata on the
request with the given id; when the decision is `approved` and a target
user id was passed, also set that user's verification flag. -/
def handleVerificationDecision (reviewerUid requestId : Nat) (decision : VStatus)
    (userId : Option Nat) (now : Int) (st : Store) : Store :=
  { st with
      requests := st.requests.map (fun r =>
        if r.rid == requestId then reviewUpdate decision reviewerUid now r else r),
      users :=
        match decision, userId with
        | .approved, some uid => setVerified uid st.users
        | _, _ => st.users }

/-! ## Feed theorems -/

lemma byCreatedAtDesc_trans (a b c : Post) (hab : byCreatedAtDesc a b)
    (hbc : byCreatedAtDesc b c) : byCreatedAtDesc a c := by
  simp only [byCreatedAtDesc, decide_eq_true_eq] at *
  omega

lemma byCreatedAtDesc_total (a b : Post) : byCreatedAtDesc a b || byCreatedAtDesc b a := by
  simp only [byCreatedAtDesc, Bool.or_eq_true, decide_eq_true_eq]
  omega

lemma byLikeCountDesc_trans (a b c : Post) (hab : byLikeCountDesc a b)
    (hbc : byLikeCountDesc b c) : byLikeCountDesc a c := by
  simp only [byLikeCountDesc, decide_eq_true_eq] at *
  omega

lemma byLikeCountDesc_total (a b : Post) : byLikeCountDesc a b || byLikeCountDesc b a := by
  simp only [byLikeCountDesc, Bool.or_eq_true, decide_eq_true_eq]
  omega

lemma mem_fetchHomeFeed_userId_mem_take (following : List Nat) (posts : List Post)
    (hpos : 0 < following.length) {p : Post} (hp : p ∈ fetchHomeFeed following posts) :
    p.userId ∈ following.take 10 := by
  unfold fetchHomeFeed at hp
  rw [if_pos (by omega)] at hp
  have h1 : p ∈ (posts.filter (fun q => (following.take 10).contains q.userId)).mergeSort
      byCreatedAtDesc := List.mem_of_mem_take hp
  rw [List.mem_mergeSort] at h1
  have h2 := List.of_mem_filter h1
  simpa using h2

/-- C1: for a viewer whose follow set has between 1 and 10 members, the
assembled home feed contains only posts authored by followees, is ordered
by creation time descending, and holds at most 20 items. -/
theorem assembleHomeFeed_small_follow_set (viewerUid : Nat) (st : Store)
    (h1 : 1 ≤ (fetchFollowing viewerUid st).length)
    (h2 : (fetchFollowing viewerUid st).length ≤ 10) :
    (∀ p ∈ assembleHomeFeed viewerUid st, p.userId ∈ fetchFollowing viewerUid st) ∧
    (assembleHomeFeed viewerUid st).Pairwise (fun a b => b.createdAt ≤ a.createdAt) ∧
    (assembleHomeFeed viewerUid st).length ≤ 20 := by
  refine ⟨?_, ?_, ?_⟩
  · intro p hp
    have := mem_fetchHomeFeed_userId_mem_take (fetchFollowing viewerUid st)
      st.posts (by omega) hp
    rw [List.take_of_length_le h2] at this
    exact this
  · unfold assembleHomeFeed fetchHomeFeed
    rw [if_pos (by omega)]
    have hs := List.sorted_mergeSort byCreatedAtDesc_trans byCreatedAtDesc_total
      (st.posts.filter (fun q => ((fetchFollowing viewerUid st).take 10).contains q.userId))
    have ht := (hs.sublist (List.take_sublist 20 _))
    exact ht.imp (by
      intro a b hab
      simp only [byCreatedAtDesc, decide_eq_true_eq] at hab
      exact hab)
  · unfold assembleHomeFeed fetchHomeFeed
    rw [if_pos (by omega)]
    exact List.length_take_le 20 _

/-- C2: for a viewer with zero follow edges, the assembled home feed is
the 10 globally most-liked posts: it has `min 10 (number of posts)` items,
is sorted by like count descending, and every post left out has a like
count no larger than any post shown. -/
theorem assembleHomeFeed_no_follows (viewerUid : Nat) (st : Store)
    (hnone : fetchFollowing viewerUid st = []) :
    (assembleHomeFeed viewerUid st).length = min 10 st.posts.length ∧
    (assembleHomeFeed viewerUid st).Pairwise (fun a b => b.likeCount ≤ a.likeCount) ∧
    ∃ rest : List Post, st.posts.Perm (assembleHomeFeed viewerUid st ++ rest) ∧
      ∀ p ∈ assembleHomeFeed viewerUid st, ∀ q ∈ rest, q.likeCount ≤ p.likeCount := by
  have hfeed : assembleHomeFeed viewerUid st =
      (st.posts.mergeSort byLikeCountDesc).take 10 := by
    unfold assembleHomeFeed fetchHomeFeed
    rw [hnone]
    rfl
  have hsorted := List.sorted_mergeSort byLikeCountDesc_trans byLikeCountDesc_total st.posts
  refine ⟨?_, ?_, ?_⟩
  · rw [hfeed]
    simp
  · rw [hfeed]
    exact (hsorted.sublist (List.take_sublist 10 _)).imp (by
      intro a b hab
      simpa [byLikeCountDesc] using hab)
  · refine ⟨(st.posts.mergeSort byLikeCountDesc).drop 10, ?_, ?_⟩
    · rw [hfeed, List.take_append_drop]
      exact (List.mergeSort_perm st.posts byLikeCountDesc).symm
    · intro p hp q hq
      rw [hfeed] at hp
      have hsplit := hsorted
      rw [← List.take_append_drop 10 (st.posts.mergeSort byLikeCountDesc),
        List.pairwise_append] at hsplit
      have := hsplit.2.2 p hp q hq
      simpa [byLikeCountDesc] using this

/-- C3: for a viewer following more than 10 identities (with no duplicate
follow edges), a followee listed beyond the 10th position of the follow
set never authors any item of the assembled home feed. -/
theorem assembleHomeFeed_beyond_tenth (viewerUid : Nat) (st : Store) (a : Nat)
    (h : 10 < (fetchFollowing viewerUid st).length)
    (hnd : (fetchFollowing viewerUid st).Nodup)
    (ha : a ∈ (fetchFollowing viewerUid st).drop 10) :
    ∀ p ∈ assembleHomeFeed viewerUid st, p.userId ≠ a := by
  intro p hp heq
  have hmem := mem_fetchHomeFeed_userId_mem_take (fetchFollowing viewerUid st)
    st.posts (by omega) hp
  rw [heq] at hmem
  rw [← List.take_append_drop 10 (fetchFollowing viewerUid st), List.nodup_append] at hnd
  exact hnd.2.2 hmem ha

/-! ## Concrete example data -/

/-- A post with the given id, author, creation time and like count. -/
def mkPost (pid uid : Nat) (t lc : Int) : Post :=
  ⟨pid, uid, "", "", "", none, t, lc, 0, true⟩

/-- Store for the small-follow-set scenario: user 1 follows user 2, who
has authored one post. -/
def storeA : Store :=
  ⟨[], [mkPost 1 2 100 0], [⟨1, 2, 0⟩], [], []⟩

/-- Store for the no-follows scenario: two posts, no follow edges. -/
def storeB : Store :=
  ⟨[], [mkPost 1 2 100 5, mkPost 2 3 200 9], [], [], []⟩

/-- Store for the beyond-the-tenth scenario: user 1 follows the eleven
users 0..10 and user 10 has authored one post. -/
def storeC : Store :=
  ⟨[], [mkPost 1 10 100 0],
   [⟨1, 0, 0⟩, ⟨1, 1, 0⟩, ⟨1, 2, 0⟩, ⟨1, 3, 0⟩, ⟨1, 4, 0⟩, ⟨1, 5, 0⟩,
    ⟨1, 6, 0⟩, ⟨1, 7, 0⟩, ⟨1, 8, 0⟩, ⟨1, 9, 0⟩, ⟨1, 10, 0⟩], [], []⟩

/-- Witness for C1 at `storeA`. -/
theorem assembleHomeFeed_small_follow_set_witness :
    (∀ p ∈ assembleHomeFeed 1 storeA, p.userId ∈ fetchFollowing 1 storeA) ∧
    (assembleHomeFeed 1 storeA).Pairwise (fun a b => b.createdAt ≤ a.createdAt) ∧
    (assembleHomeFeed 1 storeA).length ≤ 20 :=
  assembleHomeFeed_small_follow_set 1 storeA (by decide) (by decide)

/-- Witness for C2 at `storeB`. -/
theorem assembleHomeFeed_no_follows_witness :
    (assembleHomeFeed 3 storeB).length = min 10 storeB.posts.length ∧
    (assembleHomeFeed 3 storeB).Pairwise (fun a b => b.likeCount ≤ a.likeCount) ∧
    ∃ rest : List Post, storeB.posts.Perm (assembleHomeFeed 3 storeB ++ rest) ∧
      ∀ p ∈ assembleHomeFeed 3 storeB, ∀ q ∈ rest, q.likeCount ≤ p.likeCount :=
  assembleHomeFeed_no_follows 3 storeB (by decide)

/-- Witness for C3 at `storeC`: the post authored by the 11th followee is
in the store but not in the feed. -/
theorem assembleHomeFeed_beyond_tenth_witness :
    mkPost 1 10 100 0 ∈ storeC.posts ∧ mkPost 1 10 100 0 ∉ assembleHomeFeed 1 storeC :=
  ⟨by decide, fun hmem =>
    assembleHomeFeed_beyond_tenth 1 storeC 10 (by decide) (by decide) (by decide)
      (mkPost 1 10 100 0) hmem rfl⟩

/-! ## Like-toggle theorems -/

lemma applyLikeDelta_cons (postId : Nat) (d : Int) (p : Post) (ps : List Post) :
    applyLikeDelta postId d (p :: ps) =
      (if p.pid == postId then { p with likeCount := p.likeCount + d } else p) ::
        applyLikeDelta postId d ps := rfl

lemma applyLikeDelta_applyLikeDelta (postId : Nat) (d1 d2 : Int) (posts : List Post) :
    applyLikeDelta postId d2 (applyLikeDelta postId d1 posts) =
      applyLikeDelta postId (d1 + d2) posts := by
  induction posts with
  | nil => rfl
  | cons p ps ih =>
      by_cases h : p.pid == postId
      · simp [applyLikeDelta_cons, h, ih, Int.add_assoc]
      · simp [applyLikeDelta_cons, h, ih]

lemma applyLikeDelta_zero (postId : Nat) (posts : List Post) :
    applyLikeDelta postId 0 posts = posts := by
  induction posts with
  | nil => rfl
  | cons p ps ih =>
      by_cases h : p.pid == postId
      · simp [applyLikeDelta_cons, h, ih]
      · simp [applyLikeDelta_cons, h, ih]

lemma deleteFirstMatch_eq_of_any_eq_false {p : α → Bool} {l : List α}
    (h : l.any p = false) : deleteFirstMatch p l = l := by
  induction l with
  | nil => rfl
  | cons x xs ih =>
      simp only [List.any_cons, Bool.or_eq_false_iff] at h
      simp [deleteFirstMatch, h.1, ih h.2]

lemma find?_applyLikeDelta (postId : Nat) (d : Int) (posts : List Post) :
    (applyLikeDelta postId d posts).find? (fun q => q.pid == postId) =
      (posts.find? (fun q => q.pid == postId)).map
        (fun p => { p with likeCount := p.likeCount + d }) := by
  induction posts with
  | nil => rfl
  | cons p ps ih =>
      by_cases h : p.pid == postId
      · simp [applyLikeDelta_cons, h]
      · simp [applyLikeDelta_cons, h, ih]

/-- C4: starting from a settled state (local `liked` flag equal to edge
existence), toggling the like twice restores the original flag and the
post's original stored like count. -/
theorem handleLike_involutive (userId postId : Nat) (liked : Bool) (n1 n2 : Int)
    (st : Store) (hsettled : liked = st.likes.any (likeMatches postId userId)) :
    (handleLike userId postId (handleLike userId postId liked n1 st).2 n2
        (handleLike userId postId liked n1 st).1).2 = liked ∧
    getLikeCount postId
        (handleLike userId postId (handleLike userId postId liked n1 st).2 n2
          (handleLike userId postId liked n1 st).1).1.posts =
      getLikeCount postId st.posts := by
  cases liked
  · refine ⟨rfl, ?_⟩
    have hposts : (handleLike userId postId (handleLike userId postId false n1 st).2 n2
        (handleLike userId postId false n1 st).1).1.posts =
        applyLikeDelta postId (-1) (applyLikeDelta postId 1 st.posts) := rfl
    have h0 : (1 : Int) + -1 = 0 := by norm_num
    rw [hposts, applyLikeDelta_applyLikeDelta, h0, applyLikeDelta_zero]
  · refine ⟨rfl, ?_⟩
    have hposts : (handleLike userId postId (handleLike userId postId true n1 st).2 n2
        (handleLike userId postId true n1 st).1).1.posts =
        applyLikeDelta postId 1 (applyLikeDelta postId (-1) st.posts) := rfl
    have h0 : (-1 : Int) + 1 = 0 := by norm_num
    rw [hposts, applyLikeDelta_applyLikeDelta, h0, applyLikeDelta_zero]

/-- Store for the like-toggle scenario: post 1 has 3 likes and user 7
holds a like edge on it. -/
def storeD : Store :=
  ⟨[], [mkPost 1 2 100 3], [], [⟨1, 7, 0⟩], []⟩

/-- Witness for C4 at `storeD` with user 7 in the liked state. -/
theorem handleLike_involutive_witness :
    (handleLike 7 1 (handleLike 7 1 true 5 storeD).2 6
        (handleLike 7 1 true 5 storeD).1).2 = true ∧
    getLikeCount 1
        (handleLike 7 1 (handleLike 7 1 true 5 storeD).2 6
          (handleLike 7 1 true 5 storeD).1).1.posts =
      getLikeCount 1 storeD.posts :=
  handleLike_involutive 7 1 true 5 6 storeD (by decide)

/-- C9: invoking `handleLike` in the liked state when no like edge exists
for the pair skips the deletion but still decrements the counter, so the
stored like count drops by one regardless (and can go below zero). -/
theorem handleLike_missing_edge_decrement (userId postId : Nat) (now : Int)
    (st : Store) (p : Post)
    (hno : st.likes.any (likeMatches postId userId) = false)
    (hp : st.posts.find? (fun q => q.pid == postId) = some p) :
    (handleLike userId postId true now st).1.likes = st.likes ∧
    getLikeCount postId (handleLike userId postId true now st).1.posts =
      some (p.likeCount - 1) := by
  constructor
  · show deleteFirstMatch (likeMatches postId userId) st.likes = st.likes
    exact deleteFirstMatch_eq_of_any_eq_false hno
  · show getLikeCount postId (applyLikeDelta postId (-1) st.posts) = some (p.likeCount - 1)
    unfold getLikeCount
    rw [find?_applyLikeDelta, hp]
    simp [Int.sub_eq_add_neg]

/-- Store for the phantom-unlike scenario: post 1 has 0 likes and no like
edge exists for user 7. -/
def storeE : Store :=
  ⟨[], [mkPost 1 2 100 0], [], [], []⟩

/-- Witness for C9 at `storeE`: the count drops to -1, below zero. -/
theorem handleLike_missing_edge_decrement_witness :
    (handleLike 7 1 true 5 storeE).1.likes = storeE.likes ∧
    getLikeCount 1 (handleLike 7 1 true 5 storeE).1.posts = some (-1) := by
  have h := handleLike_missing_edge_decrement 7 1 5 storeE (mkPost 1 2 100 0)
    (by decide) (by decide)
  exact ⟨h.1, by rw [h.2]; decide⟩

/-! ## Post-creation theorems -/

/-- A user record with the given id, privacy flag and post count. -/
def mkUser (uid : Nat) (priv : Bool) (pc : Int) : UserRec :=
  ⟨uid, "", "", priv, false, pc, 0, 0⟩

lemma incrementPostCount_cons (uid : Nat) (u : UserRec) (us : List UserRec) :
    incrementPostCount uid (u :: us) =
      (if u.uid == uid then { u with postCount := u.postCount + 1 } else u) ::
        incrementPostCount uid us := rfl

lemma find?_incrementPostCount (uid : Nat) (users : List UserRec) :
    (incrementPostCount uid users).find? (fun u => u.uid == uid) =
      (users.find? (fun u => u.uid == uid)).map
        (fun u => { u with postCount := u.postCount + 1 }) := by
  induction users with
  | nil => rfl
  | cons u us ih =>
      by_cases h : u.uid == uid
      · simp [incrementPostCount_cons, h]
      · simp [incrementPostCount_cons, h, ih]

lemma checkRateLimit_eq_false (authorUid : Nat) (now : Int) (posts : List Post)
    (hrecent : ∃ p ∈ posts, p.userId = authorUid ∧ now - 60 * 1000 < p.createdAt) :
    checkRateLimit authorUid now posts = false := by
  obtain ⟨p, hp, hu, ht⟩ := hrecent
  have hmem : p ∈ posts.filter
      (fun q => q.userId == authorUid && decide (now - 60 * 1000 < q.createdAt)) :=
    List.mem_filter.mpr ⟨hp, by simp [hu]; omega⟩
  unfold checkRateLimit
  rw [List.isEmpty_eq_false]
  exact List.ne_nil_of_mem hmem

/-- C5 amended: if the author has a post with a creation time inside the
trailing 60 seconds and the submitted text is non-blank, `handleSubmit`
returns the rate-limit rejection and leaves the store unchanged. -/
theorem handleSubmit_rateLimited (author : UserRec) (text imageUrl : String)
    (newPid : Nat) (now : Int) (st : Store)
    (htext : (strTrim text) ≠ "")
    (hrecent : ∃ p ∈ st.posts, p.userId = author.uid ∧ now - 60 * 1000 < p.createdAt) :
    (handleSubmit author text imageUrl newPid now st).result = CreateResult.rateLimited ∧
    (handleSubmit author text imageUrl newPid now st).store = st := by
  have hcheck := checkRateLimit_eq_false author.uid now st.posts hrecent
  unfold handleSubmit
  rw [if_neg htext, hcheck]
  exact ⟨rfl, rfl⟩

/-- Store for the rate-limit scenarios: author 4 has one post created at
time 99970, inside the 60 s window before `now = 100000`. -/
def storeF : Store :=
  ⟨[mkUser 4 false 1], [mkPost 1 4 99970 0], [], [], []⟩

/-- Witness for the amended C5 at `storeF`. -/
theorem handleSubmit_rateLimited_witness :
    (handleSubmit (mkUser 4 false 1) "x" "" 2 100000 storeF).result =
      CreateResult.rateLimited ∧
    (handleSubmit (mkUser 4 false 1) "x" "" 2 100000 storeF).store = storeF :=
  handleSubmit_rateLimited (mkUser 4 false 1) "x" "" 2 100000 storeF
    (by decide) (by decide)

/-- C5 as frozen fails on blank text: author 4 has a post inside the
trailing 60 seconds, yet the call is rejected with the empty-text signal
rather than the rate-limit signal. -/
theorem handleSubmit_recent_post_not_rateLimited :
    (∃ p ∈ storeF.posts, p.userId = (mkUser 4 false 1).uid ∧
        (100000 : Int) - 60 * 1000 < p.createdAt) ∧
    (handleSubmit (mkUser 4 false 1) "" "" 2 100000 storeF).result =
      CreateResult.emptyText ∧
    (handleSubmit (mkUser 4 false 1) "" "" 2 100000 storeF).result ≠
      CreateResult.rateLimited := by
  decide

/-- C6: when the rate-limit check passes and the text is non-blank,
`handleSubmit` creates the post: exactly one item is appended, with zero
like and comment counts and `isPublic` the negation of the author's
privacy flag, and the author's `postCount` is incremented by exactly 1. -/
theorem handleSubmit_success (author : UserRec) (text imageUrl : String)
    (newPid : Nat) (now : Int) (st : Store) (au : UserRec)
    (htext : (strTrim text) ≠ "")
    (hcan : checkRateLimit author.uid now st.posts = true)
    (hu : st.users.find? (fun u => u.uid == author.uid) = some au) :
    (handleSubmit author text imageUrl newPid now st).result = CreateResult.created ∧
    (∃ p : Post,
      (handleSubmit author text imageUrl newPid now st).store.posts = st.posts ++ [p] ∧
      p.userId = author.uid ∧ p.likeCount = 0 ∧ p.commentCount = 0 ∧
      p.isPublic = !author.isPrivate) ∧
    (handleSubmit author text imageUrl newPid now st).store.users.find?
        (fun u => u.uid == author.uid) =
      some { au with postCount := au.postCount + 1 } := by
  unfold handleSubmit
  rw [if_neg htext, hcan, if_neg (by decide)]
  refine ⟨rfl, ⟨_, rfl, rfl, rfl, rfl, rfl⟩, ?_⟩
  show (incrementPostCount author.uid st.users).find? (fun u => u.uid == author.uid) = _
  rw [find?_incrementPostCount, hu]
  rfl

/-- Store for the successful-creation scenario: author 5 exists with zero
posts and the posts collection is empty. -/
def storeG : Store :=
  ⟨[mkUser 5 false 0], [], [], [], []⟩

/-- Witness for C6 at `storeG`: author 5 with 0 prior posts posts
"hello world" and ends with `postCount` 1. -/
theorem handleSubmit_success_witness :
    (handleSubmit (mkUser 5 false 0) "hello world" "" 1 100 storeG).result =
      CreateResult.created ∧
    (∃ p : Post,
      (handleSubmit (mkUser 5 false 0) "hello world" "" 1 100 storeG).store.posts =
        storeG.posts ++ [p] ∧
      p.userId = (mkUser 5 false 0).uid ∧ p.likeCount = 0 ∧ p.commentCount = 0 ∧
      p.isPublic = !(mkUser 5 false 0).isPrivate) ∧
    (handleSubmit (mkUser 5 false 0) "hello world" "" 1 100 storeG).store.users.find?
        (fun u => u.uid == (mkUser 5 false 0).uid) =
      some { mkUser 5 false 0 with postCount := (mkUser 5 false 0).postCount + 1 } :=
  handleSubmit_success (mkUser 5 false 0) "hello world" "" 1 100 storeG
    (mkUser 5 false 0) (by decide) (by decide) (by decide)

/-- C10: blank-after-trim text is rejected before the rate-limit query
(no query issued, store untouched); with non-blank text and a passing
rate-limit check, the stored item's text is the trimmed input. -/
theorem handleSubmit_text_handling (author : UserRec) (text imageUrl : String)
    (newPid : Nat) (now : Int) (st : Store) :
    ((strTrim text) = "" →
      handleSubmit author text imageUrl newPid now st =
        ⟨CreateResult.emptyText, st, false⟩) ∧
    ((strTrim text) ≠ "" → checkRateLimit author.uid now st.posts = true →
      ∃ p : Post,
        (handleSubmit author text imageUrl newPid now st).store.posts =
          st.posts ++ [p] ∧ p.text = (strTrim text)) := by
  constructor
  · intro h
    unfold handleSubmit
    rw [if_pos h]
  · intro h1 h2
    unfold handleSubmit
    rw [if_neg h1, h2, if_neg (by decide)]
    exact ⟨_, rfl, rfl⟩

/-- Witness for C10 at `storeG`: whitespace-only text is bounced with no
query and no store change; text " hi " is stored trimmed. -/
theorem handleSubmit_text_handling_witness :
    (handleSubmit (mkUser 5 false 0) " " "" 2 100 storeG =
      ⟨CreateResult.emptyText, storeG, false⟩) ∧
    (∃ p : Post,
      (handleSubmit (mkUser 5 false 0) " hi " "" 2 100 storeG).store.posts =
        storeG.posts ++ [p] ∧ p.text = strTrim " hi ") :=
  ⟨(handleSubmit_text_handling (mkUser 5 false 0) " " "" 2 100 storeG).1 (by decide),
   (handleSubmit_text_handling (mkUser 5 false 0) " hi " "" 2 100 storeG).2
     (by decide) (by decide)⟩

/-! ## Follow-toggle theorems -/

lemma deleteFirstMatch_sublist (p : α → Bool) (l : List α) :
    List.Sublist (deleteFirstMatch p l) l := by
  induction l with
  | nil => exact List.Sublist.refl _
  | cons x xs ih =>
      by_cases h : p x
      · rw [deleteFirstMatch, if_pos h]
        exact List.sublist_cons_self x xs
      · rw [deleteFirstMatch, if_neg h]
        exact ih.cons₂ x

/-- C7: neither direction of the follow toggle writes any counter: the
`users` collection (holding every denormalized counter) as well as posts,
likes and requests are untouched; unfollow only removes the first matching
edge (leaving a sublist of the edges) and follow only appends one edge. -/
theorem handleFollow_no_counter_writes (currentUid targetUid : Nat) (b : Bool)
    (now : Int) (st : Store) :
    (handleFollow currentUid targetUid b now st).1.users = st.users ∧
    (handleFollow currentUid targetUid b now st).1.posts = st.posts ∧
    (handleFollow currentUid targetUid b now st).1.likes = st.likes ∧
    (handleFollow currentUid targetUid b now st).1.requests = st.requests ∧
    (handleFollow currentUid targetUid true now st).1.follows =
      deleteFirstMatch (followMatches currentUid targetUid) st.follows ∧
    List.Sublist (handleFollow currentUid targetUid true now st).1.follows st.follows ∧
    (handleFollow currentUid targetUid false now st).1.follows =
      st.follows ++ [⟨currentUid, targetUid, now⟩] := by
  cases b <;>
    exact ⟨rfl, rfl, rfl, rfl, rfl, deleteFirstMatch_sublist _ _, rfl⟩

/-! ## Verification-decision theorems -/

lemma setVerified_cons (uid : Nat) (u : UserRec) (us : List UserRec) :
    setVerified uid (u :: us) =
      (if u.uid == uid then { u with isVerified := true } else u) ::
        setVerified uid us := rfl

lemma setVerified_idem (uid : Nat) (users : List UserRec) :
    setVerified uid (setVerified uid users) = setVerified uid users := by
  induction users with
  | nil => rfl
  | cons u us ih =>
      by_cases h : u.uid == uid
      · simp [setVerified_cons, h, ih]
      · simp [setVerified_cons, h, ih]

lemma find?_setVerified (uid : Nat) (users : List UserRec) :
    (setVerified uid users).find? (fun u => u.uid == uid) =
      (users.find? (fun u => u.uid == uid)).map
        (fun u => { u with isVerified := true }) := by
  induction users with
  | nil => rfl
  | cons u us ih =>
      by_cases h : u.uid == uid
      · simp [setVerified_cons, h]
      · simp [setVerified_cons, h, ih]

lemma reviewUpdate_reviewUpdate (reviewerUid : Nat) (decision : VStatus)
    (now : Int) (r : VRequest) :
    reviewUpdate decision reviewerUid now (reviewUpdate decision reviewerUid now r) =
      reviewUpdate decision reviewerUid now r := rfl

lemma reviewMap_idem (requestId reviewerUid : Nat) (decision : VStatus) (now : Int)
    (rs : List VRequest) :
    ((rs.map (fun r => if r.rid == requestId then reviewUpdate decision reviewerUid now r
        else r)).map (fun r => if r.rid == requestId then
          reviewUpdate decision reviewerUid now r else r)) =
    rs.map (fun r => if r.rid == requestId then reviewUpdate decision reviewerUid now r
      else r) := by
  rw [List.map_map]
  apply List.map_congr_left
  intro r _
  show (fun r => if r.rid == requestId then reviewUpdate decision reviewerUid now r else r)
      (if r.rid == requestId then reviewUpdate decision reviewerUid now r else r) = _
  by_cases h : r.rid == requestId
  · have h2 : ((reviewUpdate decision reviewerUid now r).rid == requestId) = true := h
    simp [h, h2, reviewUpdate_reviewUpdate]
  · simp [h]

lemma find?_reviewMap (requestId reviewerUid : Nat) (decision : VStatus) (now : Int)
    (rs : List VRequest) :
    ((rs.map (fun r => if r.rid == requestId then reviewUpdate decision reviewerUid now r
        else r)).find? (fun r => r.rid == requestId)) =
      (rs.find? (fun r => r.rid == requestId)).map
        (reviewUpdate decision reviewerUid now) := by
  induction rs with
  | nil => rfl
  | cons r rs ih =>
      by_cases h : r.rid == requestId
      · have h2 : ((reviewUpdate decision reviewerUid now r).rid == requestId) = true := h
        rw [List.map_cons, if_pos h,
          List.find?_cons_of_pos (p := fun x : VRequest => x.rid == requestId) _ h2,
          List.find?_cons_of_pos (p := fun x : VRequest => x.rid == requestId) _ h]
        rfl
      · rw [List.map_cons, if_neg h,
          List.find?_cons_of_neg (p := fun x : VRequest => x.rid == requestId) _ h,
          List.find?_cons_of_neg (p := fun x : VRequest => x.rid == requestId) _ h, ih]

/-- C8: the decision writes status and review metadata on the request with
the given id; the target identity's verification flag is set to true
exactly when the outcome is approved and a target id is supplied (in every
other case the `users` collection is untouched); and re-applying the same
decision is idempotent. -/
theorem handleVerificationDecision_spec (reviewerUid requestId : Nat)
    (decision : VStatus) (userId : Option Nat) (now : Int) (st : Store) :
    ((handleVerificationDecision reviewerUid requestId decision userId now st).requests.find?
        (fun r => r.rid == requestId) =
      (st.requests.find? (fun r => r.rid == requestId)).map
        (reviewUpdate decision reviewerUid now)) ∧
    ((handleVerificationDecision reviewerUid requestId VStatus.rejected userId now st).users =
      st.users) ∧
    ((handleVerificationDecision reviewerUid requestId decision none now st).users =
      st.users) ∧
    (∀ uid : Nat,
      (handleVerificationDecision reviewerUid requestId VStatus.approved (some uid) now
          st).users.find? (fun u => u.uid == uid) =
        (st.users.find? (fun u => u.uid == uid)).map
          (fun u => { u with isVerified := true })) ∧
    (handleVerificationDecision reviewerUid requestId decision userId now
        (handleVerificationDecision reviewerUid requestId decision userId now st) =
      handleVerificationDecision reviewerUid requestId decision userId now st) := by
  refine ⟨?_, ?_, ?_, ?_, ?_⟩
  · exact find?_reviewMap requestId reviewerUid decision now st.requests
  · cases userId <;> rfl
  · cases decision <;> rfl
  · intro uid
    exact find?_setVerified uid st.users
  · cases decision <;> cases userId <;>
      (unfold handleVerificationDecision;
       dsimp only;
       rw [reviewMap_idem];
       try rw [setVerified_idem])

end DQuote
